import Mathlib

/-
Verification of the request-handling pipeline of a static-content HTTP
server (basic-http-server, src/main.rs).

The embedding models:
  * request paths, filesystem paths and response bodies as `List Char`
    (the Rust code works on `&str` / `PathBuf` / `Vec<u8>` byte sequences);
  * `PathBuf::push` (Unix semantics: an absolute argument replaces the
    receiver, otherwise a `/` separator is inserted when the receiver is
    nonempty and does not already end in `/`);
  * `local_path_for_request`, `file_path_mime`, `handle_io_error`,
    `error_response`, `respond_with_file` and `serve` from src/main.rs;
  * the filesystem as a function from paths to open-and-read outcomes,
    so that `serve`'s composition (resolve, open, respond or classify)
    is explicit.
-/

set_option autoImplicit false

/-- Strip the query: the Rust code computes `end = find('?').unwrap_or(len)`
and keeps `request_path[0..end]`, i.e. the characters before the first `?`. -/
def stripQuery (p : List Char) : List Char :=
  p.takeWhile (fun c => c != '?')

/-- `PathBuf::push` on Unix: an absolute argument (leading `/`) replaces the
receiver; otherwise a `/` separator is inserted exactly when the receiver is
nonempty and its last character is not already `/`. -/
def pushPath (self arg : List Char) : List Char :=
  if arg.head? = some '/' then arg
  else if self ≠ [] ∧ self.getLast? ≠ some '/' then self ++ '/' :: arg
  else self ++ arg

/-- The literal `index.html` pushed for directory requests. -/
def indexHtml : List Char := "index.html".toList

/-- `local_path_for_request` from src/main.rs: reject paths without a leading
`/`, strip the query, push the remainder after the leading `/` onto the root
directory, and push `index.html` when the query-stripped path ends in `/`. -/
def local_path_for_request (root_dir request_path : List Char) : Option (List Char) :=
  if request_path.head? ≠ some '/' then
    none
  else
    let rp := stripQuery request_path
    if rp.head? = some '/' then
      let path := pushPath root_dir (rp.drop 1)
      let path := if rp.getLast? = some '/' then pushPath path indexHtml else path
      some path
    else
      none

/-- Split a path into `/`-separated pieces (empty pieces kept, as in Rust's
component iterator before normalisation). -/
def splitSegs : List Char → List (List Char)
  | [] => [[]]
  | c :: rest =>
    if c = '/' then [] :: splitSegs rest
    else
      match splitSegs rest with
      | [] => [[c]]
      | s :: ss => (c :: s) :: ss

/-- `Path::file_name`: the last normal component (empty and `.` components are
skipped by the component iterator; a path ending in `..` has no file name). -/
def pathFileName (p : List Char) : Option (List Char) :=
  let comps := (splitSegs p).filter (fun s => !(s == [] || s == ['.']))
  match comps.getLast? with
  | none => none
  | some s => if s = ['.', '.'] then none else some s

/-- The extension of a file name: the part after the last `.`, none when the
name is `..`, has no `.`, or the only `.` is the leading character. -/
def fileExt (name : List Char) : Option (List Char) :=
  if name = ['.', '.'] then none
  else if '.' ∈ name then
    let after := (name.reverse.takeWhile (fun c => c != '.')).reverse
    if name.length = after.length + 1 then none else some after
  else none

/-- `Path::extension` of a whole path. -/
def pathExtension (p : List Char) : Option (List Char) :=
  (pathFileName p).bind fileExt

/-- The match arms of `file_path_mime` in src/main.rs, as the content-type
string each `mime::Mime` value renders to. -/
def extension_mime (ext : Option (List Char)) : List Char :=
  match ext with
  | some e =>
    if e = "html".toList then "text/html".toList
    else if e = "css".toList then "text/css".toList
    else if e = "js".toList then "text/javascript".toList
    else if e = "jpg".toList then "image/jpeg".toList
    else if e = "md".toList then "text/markdown; charset=UTF-8".toList
    else if e = "png".toList then "image/png".toList
    else if e = "svg".toList then "image/svg+xml".toList
    else if e = "wasm".toList then "application/wasm".toList
    else "text/plain".toList
  | none => "text/plain".toList

/-- `file_path_mime` from src/main.rs: look the path's extension up in the
fixed table. -/
def file_path_mime (p : List Char) : List Char :=
  extension_mime (pathExtension p)

/-- The canonical reason phrases of `http::StatusCode`'s `Display`
implementation, for the statuses this server produces. -/
def canonicalReason (status : Nat) : List Char :=
  if status = 200 then "OK".toList
  else if status = 404 then "Not Found".toList
  else if status = 500 then "Internal Server Error".toList
  else "<unknown status code>".toList

/-- `format!("{}", status)` for an `http::StatusCode`: the numeric code, a
space, and the canonical reason phrase. -/
def statusDisplay (status : Nat) : List Char :=
  (Nat.repr status).toList ++ ' ' :: canonicalReason status

/-- Modelled from the spec: the file template.html (pulled in at build time
with `include_str!`) is not under src/; the spec says the Template Renderer
uses one fixed template with exactly two substitution points, `title` and
`body`, so the template is modelled as three fixed pieces around them.
Handlebars HTML-escaping is omitted: the titles actually rendered (status
lines) contain no escapable characters. -/
def templatePre : List Char := "<!doctype html><html><head><title>".toList

/-- Modelled from the spec: middle piece of the fixed template, between the
`title` and `body` substitution points. -/
def templateMid : List Char := "</title></head><body>".toList

/-- Modelled from the spec: final piece of the fixed template, after the
`body` substitution point. -/
def templatePost : List Char := "</body></html>".toList

/-- `render_html`: substitute `title` and `body` into the fixed template. -/
def render_html (title body : List Char) : List Char :=
  templatePre ++ title ++ templateMid ++ body ++ templatePost

/-- `render_error_html` from src/main.rs: render the template with the
status's display string as title and an empty body. -/
def render_error_html (status : Nat) : List Char :=
  render_html (statusDisplay status) []

/-- An HTTP response as this server builds one: a status, the optional
`Content-Length` and `Content-Type` headers, and the body bytes. -/
structure HttpResponse where
  status : Nat
  contentLength : Option Nat
  contentType : Option (List Char)
  body : List Char
deriving DecidableEq

/-- `error_response` from src/main.rs: render the error page, set the status
and `Content-Length`, no `Content-Type` header. -/
def error_response (status : Nat) : HttpResponse :=
  ⟨status, some (render_error_html status).length, none, render_error_html status⟩

/-- `internal_server_error` from src/main.rs. -/
def internal_server_error : HttpResponse :=
  error_response 500

/-- The `io::ErrorKind` values relevant to `handle_io_error`: `NotFound` is
singled out, every other kind is covered by the wildcard arm. -/
inductive IoErrorKind where
  | notFound
  | permissionDenied
  | isADirectory
  | tooManyOpenFiles
  | interrupted
  | other
deriving DecidableEq

/-- `handle_io_error` from src/main.rs: 404 for `NotFound`, 500 otherwise. -/
def handle_io_error (k : IoErrorKind) : HttpResponse :=
  match k with
  | .notFound => error_response 404
  | _ => internal_server_error

/-- `respond_with_file` from src/main.rs, after the file has been read in
full: status 200, `Content-Length` set to the byte count, `Content-Type`
from the MIME table on the path, body the bytes read. -/
def respond_with_file (path contents : List Char) : HttpResponse :=
  ⟨200, some contents.length, some (file_path_mime path), contents⟩

/-- Outcome of opening and fully reading a path: the bytes, or the
`io::ErrorKind` of the failure. -/
inductive OpenResult where
  | ok (contents : List Char)
  | err (k : IoErrorKind)
deriving DecidableEq

/-- `serve` from src/main.rs, with the filesystem made explicit as a function
from paths to open-and-read outcomes: resolve the path, on "no path" answer
the 500 page, otherwise open and either respond with the file or classify
the I/O error. -/
def serve (fs : List Char → OpenResult) (root_dir request_path : List Char) : HttpResponse :=
  match local_path_for_request root_dir request_path with
  | some path =>
    match fs path with
    | .ok contents => respond_with_file path contents
    | .err e => handle_io_error e
  | none => internal_server_error

/-- Spec-side join (the spec's "root_dir joined with the path's segments
after the leading `/`"): the remainder is kept underneath the root, with a
`/` separator inserted when the root is nonempty and does not end in `/`. -/
def joinRel (root rel : List Char) : List Char :=
  if root ≠ [] ∧ root.getLast? ≠ some '/' then root ++ '/' :: rel else root ++ rel

/-- Lexical normalisation of a path into its list of segments: empty and `.`
segments are dropped, `..` pops the previous segment. -/
def normSegs (p : List Char) : List (List Char) :=
  ((splitSegs p).filter (fun s => !(s == [] || s == ['.']))).foldl
    (fun acc s => if s = ['.', '.'] then acc.dropLast else acc ++ [s]) []

/-- A path lies under a root when both are equally absolute and the
normalised segments of the root are a prefix of those of the path. -/
def underRoot (root p : List Char) : Bool :=
  ((root.head? == some '/') == (p.head? == some '/')) &&
    (normSegs root).isPrefixOf (normSegs p)

/-! Helper lemmas about the path operations. -/

theorem stripQuery_cons_slash (t : List Char) :
    stripQuery ('/' :: t) = '/' :: stripQuery t :=
  rfl

theorem stripQuery_eq_self (t : List Char) (h : '?' ∉ t) : stripQuery t = t := by
  apply List.takeWhile_eq_self_iff.mpr
  intro a ha
  simp only [bne_iff_ne, ne_eq]
  rintro rfl
  exact h ha

theorem pushPath_of_not_abs (self arg : List Char) (h : arg.head? ≠ some '/') :
    pushPath self arg = joinRel self arg := by
  unfold pushPath joinRel
  rw [if_neg h]

theorem pushPath_abs (self arg : List Char) (h : arg.head? = some '/') :
    pushPath self arg = arg := by
  unfold pushPath
  rw [if_pos h]

theorem joinRel_of_last_slash (self rel : List Char) (h : self.getLast? = some '/') :
    joinRel self rel = self ++ rel := by
  unfold joinRel
  rw [if_neg]
  simp [h]

theorem getLast?_cons_ne_nil (a : Char) (l : List Char) (h : l ≠ []) :
    (a :: l).getLast? = l.getLast? := by
  cases l with
  | nil => exact absurd rfl h
  | cons b m => exact List.getLast?_cons_cons

theorem indexHtml_not_abs : indexHtml.head? ≠ some '/' := by decide

theorem local_path_eq (root t : List Char) :
    local_path_for_request root ('/' :: t) =
      some (if ('/' :: stripQuery t).getLast? = some '/'
            then pushPath (pushPath root (stripQuery t)) indexHtml
            else pushPath root (stripQuery t)) :=
  rfl

/-! Claim theorems. -/

/-- C1, counterexample: the resolver is claimed never to produce a path
outside `root_dir`, but the request path `/../secret` resolves to
`root/../secret`, whose lexical normalisation is not under `root`. -/
theorem resolver_escapes_root :
    local_path_for_request "root".toList "/../secret".toList = some "root/../secret".toList ∧
    underRoot "root".toList "root/../secret".toList = false := by
  decide

/-- C1 (amended): `..` segments pass through the resolver unmodified — a
request `/../rest` (without query, not ending in `/`) resolves to `root_dir`
joined verbatim with `../rest`, so the resolved path can lie outside
`root_dir` once `..` is normalised; no containment invariant holds. -/
theorem dotdot_passes_through (root rest : List Char) (hq : '?' ∉ rest)
    (hn : rest ≠ []) (hl : rest.getLast? ≠ some '/') :
    local_path_for_request root ('/' :: '.' :: '.' :: '/' :: rest) =
      some (joinRel root ('.' :: '.' :: '/' :: rest)) := by
  have hsq : stripQuery ('.' :: '.' :: '/' :: rest) = '.' :: '.' :: '/' :: rest := by
    show '.' :: '.' :: '/' :: stripQuery rest = _
    rw [stripQuery_eq_self rest hq]
  have hlast : ('/' :: '.' :: '.' :: '/' :: rest).getLast? = rest.getLast? := by
    rw [getLast?_cons_ne_nil _ _ (by simp), getLast?_cons_ne_nil _ _ (by simp),
        getLast?_cons_ne_nil _ _ (by simp), getLast?_cons_ne_nil _ _ hn]
  rw [local_path_eq, hsq, if_neg (by rw [hlast]; exact hl),
      pushPath_of_not_abs _ _ (by rw [List.head?_cons]; decide)]

/-- C1 (amended), witness: the concrete instance `root` and `/../secret`. -/
theorem dotdot_passes_through_witness :
    local_path_for_request "root".toList ('/' :: '.' :: '.' :: '/' :: "secret".toList) =
      some (joinRel "root".toList ('.' :: '.' :: '/' :: "secret".toList)) :=
  dotdot_passes_through _ _ (by decide) (by decide) (by decide)

/-- C2, counterexample: for `//etc/passwd` (starts with `/`, does not end in
`/`) the resolver does not return `root_dir` joined with the remainder — the
remainder is absolute, so `PathBuf::push` discards the root entirely and the
result does not even begin with `root_dir`. -/
theorem resolver_discards_root_cex :
    local_path_for_request "root".toList "//etc/passwd".toList = some "/etc/passwd".toList ∧
    "/etc/passwd".toList ≠ joinRel "root".toList "/etc/passwd".toList ∧
    "root".toList.isPrefixOf "/etc/passwd".toList = false := by
  decide

/-- C2 (amended): for a request path starting with `/` whose query-stripped
remainder after the leading `/` does not itself begin with `/` and does not
end with `/`, the resolver returns exactly `root_dir` joined with that
remainder (query removed first, no other normalisation). -/
theorem resolver_joins_root_remainder (root p : List Char)
    (h0 : p.head? = some '/')
    (h1 : ((stripQuery p).drop 1).head? ≠ some '/')
    (h2 : (stripQuery p).getLast? ≠ some '/') :
    local_path_for_request root p = some (joinRel root ((stripQuery p).drop 1)) := by
  cases p with
  | nil => exact absurd h0 (by simp)
  | cons c t =>
    rw [List.head?_cons, Option.some.injEq] at h0
    subst h0
    rw [stripQuery_cons_slash] at h1 h2
    simp only [List.drop_succ_cons, List.drop_zero] at h1
    rw [local_path_eq, stripQuery_cons_slash, List.drop_succ_cons, List.drop_zero,
        if_neg h2, pushPath_of_not_abs _ _ h1]

/-- C2 (amended), witness: `/a/b.html?x=1` under root `www` resolves to
`www/a/b.html`. -/
theorem resolver_joins_root_remainder_witness :
    local_path_for_request "www".toList "/a/b.html?x=1".toList =
      some (joinRel "www".toList ((stripQuery "/a/b.html?x=1".toList).drop 1)) :=
  resolver_joins_root_remainder _ _ (by decide) (by decide) (by decide)

/-- C3, counterexample: for `//dir/` (ends in `/`) the resolver does not
return `root_dir` joined with the remainder plus `index.html` — the remainder
is absolute, `PathBuf::push` discards the root, and the result does not begin
with `root_dir`. -/
theorem resolver_dir_discards_root_cex :
    local_path_for_request "root".toList "//dir/".toList = some "/dir/index.html".toList ∧
    "/dir/index.html".toList ≠ joinRel (joinRel "root".toList "/dir/".toList) indexHtml ∧
    "root".toList.isPrefixOf "/dir/index.html".toList = false := by
  decide

/-- C3 (amended): for a request path starting with `/` whose query-stripped
remainder after the leading `/` does not itself begin with `/` but does end
with `/`, the resolver returns `root_dir` joined with that remainder and then
with `index.html` appended as a final segment. -/
theorem resolver_dir_index (root p : List Char)
    (h0 : p.head? = some '/')
    (h1 : ((stripQuery p).drop 1).head? ≠ some '/')
    (h2 : (stripQuery p).getLast? = some '/') :
    local_path_for_request root p =
      some (joinRel (joinRel root ((stripQuery p).drop 1)) indexHtml) := by
  cases p with
  | nil => exact absurd h0 (by simp)
  | cons c t =>
    rw [List.head?_cons, Option.some.injEq] at h0
    subst h0
    rw [stripQuery_cons_slash] at h1 h2
    simp only [List.drop_succ_cons, List.drop_zero] at h1
    rw [local_path_eq, stripQuery_cons_slash, List.drop_succ_cons, List.drop_zero,
        if_pos h2, pushPath_of_not_abs _ _ h1, pushPath_of_not_abs _ _ indexHtml_not_abs]

/-- C3 (amended), witness: `/d/?q` under root `www` resolves to
`www/d/index.html`. -/
theorem resolver_dir_index_witness :
    local_path_for_request "www".toList "/d/?q".toList =
      some (joinRel (joinRel "www".toList ((stripQuery "/d/?q".toList).drop 1)) indexHtml) :=
  resolver_dir_index _ _ (by decide) (by decide) (by decide)

/-- C10, counterexample: `//tmp/` has an absolute remainder `/tmp/` after the
first `/`, but the resolver does not return that remainder alone — it
appends `index.html` because the stripped path ends in `/`. -/
theorem absolute_remainder_cex :
    local_path_for_request "root".toList "//tmp/".toList = some "/tmp/index.html".toList ∧
    "/tmp/index.html".toList ≠ "/tmp/".toList := by
  decide

/-- C10 (amended): for a request path whose query-stripped remainder after
the leading `/` is itself absolute, `PathBuf::push` replaces the root, so the
resolver returns that remainder with `root_dir` discarded entirely — with
`index.html` appended when the stripped path ends in `/`. The result does
not mention `root_dir` for any choice of `root_dir`. -/
theorem absolute_remainder_discards_root (root p : List Char)
    (h0 : p.head? = some '/')
    (h1 : ((stripQuery p).drop 1).head? = some '/') :
    local_path_for_request root p =
      some ((stripQuery p).drop 1 ++
        (if (stripQuery p).getLast? = some '/' then indexHtml else [])) := by
  cases p with
  | nil => exact absurd h0 (by simp)
  | cons c t =>
    rw [List.head?_cons, Option.some.injEq] at h0
    subst h0
    rw [stripQuery_cons_slash] at h1
    simp only [List.drop_succ_cons, List.drop_zero] at h1
    have hne : stripQuery t ≠ [] := by
      intro h
      rw [h] at h1
      exact Option.noConfusion h1
    rw [local_path_eq, stripQuery_cons_slash, List.drop_succ_cons, List.drop_zero,
        getLast?_cons_ne_nil _ _ hne, pushPath_abs _ _ h1]
    by_cases hl : (stripQuery t).getLast? = some '/'
    · rw [if_pos hl, if_pos hl, pushPath_of_not_abs _ _ indexHtml_not_abs,
          joinRel_of_last_slash _ _ hl]
    · rw [if_neg hl, if_neg hl, List.append_nil]

/-- C10 (amended), witness: `//etc/passwd` resolves to `/etc/passwd` under
root `root`. -/
theorem absolute_remainder_discards_root_witness :
    local_path_for_request "root".toList "//etc/passwd".toList =
      some ((stripQuery "//etc/passwd".toList).drop 1 ++
        (if (stripQuery "//etc/passwd".toList).getLast? = some '/' then indexHtml else [])) :=
  absolute_remainder_discards_root _ _ (by decide) (by decide)

/-- C4: the resolver yields "no path" exactly for request paths without a
leading `/`, and on those the handler answers the 500 error page without
consulting the filesystem (the response is the same for every filesystem). -/
theorem no_leading_slash_500 (fs : List Char → OpenResult) (root p : List Char) :
    (local_path_for_request root p = none ↔ p.head? ≠ some '/') ∧
    (p.head? ≠ some '/' → serve fs root p = error_response 500) := by
  have hres : p.head? ≠ some '/' → local_path_for_request root p = none := by
    intro h
    unfold local_path_for_request
    rw [if_pos h]
  constructor
  · constructor
    · intro hnone hslash
      cases p with
      | nil => exact absurd hslash (by simp)
      | cons c t =>
        rw [List.head?_cons, Option.some.injEq] at hslash
        subst hslash
        rw [local_path_eq] at hnone
        exact Option.noConfusion hnone
    · exact hres
  · intro h
    unfold serve
    rw [hres h]
    rfl

/-- C4, witness: the path `etc` (no leading `/`) yields no resolved path and
a 500 response, for a filesystem that would happily serve everything. -/
theorem no_leading_slash_500_witness :
    local_path_for_request "root".toList "etc".toList = none ∧
    serve (fun _ => OpenResult.ok []) "root".toList "etc".toList = error_response 500 := by
  have h := no_leading_slash_500 (fun _ => OpenResult.ok []) "root".toList "etc".toList
  exact ⟨h.1.mpr (by decide), h.2 (by decide)⟩

/-- C5, counterexample: the table's value for `md` is the source string
`text/markdown; charset=UTF-8` — with a space after the semicolon — not
`text/markdown;charset=UTF-8` as the claim writes it. -/
theorem mime_md_cex :
    extension_mime (some "md".toList) ≠ "text/markdown;charset=UTF-8".toList := by
  decide

/-- C5 (amended): the MIME mapper is a total, deterministic, case-sensitive
table lookup on the extension text — `html`, `css`, `js`, `jpg`, `md` (whose
value is `text/markdown; charset=UTF-8`, with a space after the semicolon),
`png`, `svg`, `wasm` map to their table values, and every other extension,
or an absent extension, maps to `text/plain`; no input fails. -/
theorem mime_table_lookup (e : List Char)
    (h1 : e ≠ "html".toList) (h2 : e ≠ "css".toList) (h3 : e ≠ "js".toList)
    (h4 : e ≠ "jpg".toList) (h5 : e ≠ "md".toList) (h6 : e ≠ "png".toList)
    (h7 : e ≠ "svg".toList) (h8 : e ≠ "wasm".toList) :
    extension_mime (some "html".toList) = "text/html".toList ∧
    extension_mime (some "css".toList) = "text/css".toList ∧
    extension_mime (some "js".toList) = "text/javascript".toList ∧
    extension_mime (some "jpg".toList) = "image/jpeg".toList ∧
    extension_mime (some "md".toList) = "text/markdown; charset=UTF-8".toList ∧
    extension_mime (some "png".toList) = "image/png".toList ∧
    extension_mime (some "svg".toList) = "image/svg+xml".toList ∧
    extension_mime (some "wasm".toList) = "application/wasm".toList ∧
    extension_mime none = "text/plain".toList ∧
    extension_mime (some e) = "text/plain".toList := by
  refine ⟨by decide, by decide, by decide, by decide, by decide, by decide, by decide,
    by decide, by decide, ?_⟩
  simp only [extension_mime]
  rw [if_neg h1, if_neg h2, if_neg h3, if_neg h4, if_neg h5, if_neg h6, if_neg h7, if_neg h8]

/-- C5 (amended), witness: the uppercase extension `HTML` is not in the
table, so the lookup is case-sensitive and falls back to `text/plain`. -/
theorem mime_table_lookup_witness :
    extension_mime (some "HTML".toList) = "text/plain".toList :=
  (mime_table_lookup ("HTML".toList) (by decide) (by decide) (by decide) (by decide)
    (by decide) (by decide) (by decide) (by decide)).2.2.2.2.2.2.2.2.2

/-- C6: the error classifier sends the file-not-found kind to the 404
response and every other I/O failure kind to the 500 response. -/
theorem io_error_statuses :
    handle_io_error IoErrorKind.notFound = error_response 404 ∧
    ∀ k : IoErrorKind, k ≠ IoErrorKind.notFound → handle_io_error k = error_response 500 := by
  refine ⟨rfl, ?_⟩
  intro k hk
  cases k
  · exact absurd rfl hk
  all_goals rfl

/-- C6, witness: permission denied is classified as 500. -/
theorem io_error_statuses_witness :
    handle_io_error IoErrorKind.permissionDenied = error_response 500 :=
  io_error_statuses.2 IoErrorKind.permissionDenied (by decide)

/-- C7: when the resolved path opens and reads successfully, the handler
answers status 200 with `Content-Length` the exact byte count, the
`Content-Type` from the MIME table on the resolved path, and the bytes read
as body. -/
theorem file_response_fields (fs : List Char → OpenResult) (root p path contents : List Char)
    (hres : local_path_for_request root p = some path)
    (hopen : fs path = OpenResult.ok contents) :
    serve fs root p = ⟨200, some contents.length, some (file_path_mime path), contents⟩ := by
  unfold serve
  rw [hres]
  show (match fs path with
    | OpenResult.ok contents => respond_with_file path contents
    | OpenResult.err e => handle_io_error e) = _
  rw [hopen]
  rfl

/-- C7, witness: `root/index.html` containing `hello` is served with status
200, `Content-Length: 5`, `Content-Type: text/html` and body `hello`. -/
theorem file_response_fields_witness :
    serve
      (fun q => if q = "root/index.html".toList
                then OpenResult.ok "hello".toList else OpenResult.err IoErrorKind.notFound)
      "root".toList "/index.html".toList =
      ⟨200, some 5, some "text/html".toList, "hello".toList⟩ := by
  have h := file_response_fields
    (fun q => if q = "root/index.html".toList
              then OpenResult.ok "hello".toList else OpenResult.err IoErrorKind.notFound)
    "root".toList "/index.html".toList "root/index.html".toList "hello".toList
    (by decide) (by decide)
  rw [h]
  decide

/-- C8: for an error status the response is built from the fixed template
rendered with the status line as title and an empty body; it carries that
status, `Content-Length` equal to the rendered length, and no `Content-Type`
header. -/
theorem error_page_shape (status : Nat) (_h : status = 404 ∨ status = 500) :
    error_response status =
      ⟨status, some (render_html (statusDisplay status) []).length, none,
        render_html (statusDisplay status) []⟩ ∧
    render_error_html status = render_html (statusDisplay status) [] :=
  ⟨rfl, rfl⟩

/-- C8, witness: the 404 page, whose rendered title is `404 Not Found`. -/
theorem error_page_shape_witness :
    error_response 404 =
      ⟨404, some (render_html (statusDisplay 404) []).length, none,
        render_html (statusDisplay 404) []⟩ ∧
    statusDisplay 404 = "404 Not Found".toList :=
  ⟨(error_page_shape 404 (Or.inl rfl)).1, by decide⟩

/-- C9: the pipeline is deterministic — for one filesystem state, one root
directory and equal request paths, `serve` produces identical responses; the
embedded pipeline is a pure function of its inputs, with no other state. -/
theorem serve_deterministic (fs : List Char → OpenResult) (root p q : List Char)
    (h : p = q) :
    serve fs root p = serve fs root q := by
  rw [h]

/-- C9, witness: serving `/a` twice against the same filesystem gives the
same response. -/
theorem serve_deterministic_witness :
    serve (fun _ => OpenResult.err IoErrorKind.notFound) "root".toList "/a".toList =
      serve (fun _ => OpenResult.err IoErrorKind.notFound) "root".toList "/a".toList :=
  serve_deterministic _ _ _ _ rfl
